import Mathlib

/-!
Shallow embedding of the attendance-system backend
(`enhanced_attendance_api.js` plus the SQL schema).

The durable relational store (tables `users`, `students`,
`attendance_sessions`, `attendance_records`) is modelled as lists of
structures; `SERIAL` primary keys are modelled by explicit `next…Id`
counters.  Dates (`session_date`, `CURRENT_DATE`) are modelled as `Int`
day numbers; SQL timestamps are `Option Int`; `DECIMAL` columns are `ℚ`.

The write path `POST /api/attendance/save` is `recordSession`: its
`BEGIN … COMMIT / ROLLBACK` transaction is modelled by threading a
tentative store through the inserts and discarding it (returning the
original store) whenever any insert fails.  Foreign-key checks of the
schema (`attendance_records.student_id REFERENCES students`,
`attendance_sessions.teacher_id REFERENCES users`) are performed at each
insert, exactly where PostgreSQL would raise.

The read path `GET /api/attendance/analytics` is the three SQL
aggregates translated join-row by join-row: `LEFT JOIN` produces an
`Option` right-hand side, `WHERE` filters with SQL `NULL` semantics
(a comparison against `NULL` is not satisfied), `GROUP BY` groups by the
deduplicated key list, and `ORDER BY` is an insertion sort.
-/

/-- Row of `students` (columns used by the API). -/
structure Student where
  student_id : String
  full_name : String
  section_ : String
  deriving Repr, DecidableEq

/-- Row of `attendance_sessions`. -/
structure AttendanceSession where
  session_id : Nat
  teacher_id : Nat
  subject : String
  section_ : String
  session_date : Int
  session_type : String
  start_time : Option Int
  end_time : Option Int
  total_duration : Option Int
  total_students : Nat
  deriving Repr, DecidableEq

/-- Row of `attendance_records`. -/
structure AttendanceRecord where
  record_id : Nat
  session_id : Nat
  student_id : String
  status : String
  detection_count : Int
  confidence_score : ℚ
  first_detection_time : Option Int
  last_detection_time : Option Int
  deriving Repr, DecidableEq

/-- The durable relational store.  `users` keeps only the primary keys
(`user_id`) since the write path only needs the foreign-key check on
`teacher_id`.  `nextSessionId` / `nextRecordId` model the `SERIAL`
sequences. -/
structure Store where
  users : List Nat
  students : List Student
  sessions : List AttendanceSession
  records : List AttendanceRecord
  nextSessionId : Nat
  nextRecordId : Nat
  deriving Repr, DecidableEq

/-- The request's `sessionData` object (`startTime`, `endTime`,
`duration`). -/
structure SessionData where
  startTime : Option Int
  endTime : Option Int
  duration : Option Int
  deriving Repr, DecidableEq

/-- One element of the request's `attendanceRecords` array. -/
structure RecordInput where
  studentId : String
  status : String
  detectionCount : Int
  confidenceScore : ℚ
  firstDetectionTime : Option Int
  lastDetectionTime : Option Int
  deriving Repr, DecidableEq

/-- The JSON body of `POST /api/attendance/save`.  `none` models an
absent / `undefined` field; `section` and `sessionType` get their JS
destructuring defaults (`'S33'`, `'offline'`) applied in
`recordSession`. -/
structure SaveRequest where
  sessionData : Option SessionData
  attendanceRecords : Option (List RecordInput)
  subject : Option String
  sectionField : Option String
  sessionTypeField : Option String
  deriving Repr, DecidableEq

/-- Error taxonomy of the spec: a 400 from the handler's input check is
`validationError`; a 500 from a failed query/transaction is
`persistenceError`. -/
inductive ApiError where
  | validationError
  | persistenceError
  deriving Repr, DecidableEq

/-- `students.any (student_id = sid)`: the foreign-key check behind
`attendance_records.student_id REFERENCES students(student_id)`. -/
def enrolled (students : List Student) (sid : String) : Bool :=
  students.any (fun s => s.student_id == sid)

/-- The `attendance_records` row built by the `INSERT` inside the
transaction (columns in the order of the query's parameter list). -/
def mkAttendanceRecord (rid sid : Nat) (r : RecordInput) : AttendanceRecord :=
  ⟨rid, sid, r.studentId, r.status, r.detectionCount, r.confidenceScore,
    r.firstDetectionTime, r.lastDetectionTime⟩

/-- One `INSERT INTO attendance_records …` against the transaction's
tentative store: fails (foreign-key violation) iff `studentId` is not
enrolled; the `status` string is inserted unchecked. -/
def insertRecordTx (st : Store) (sid : Nat) (r : RecordInput) :
    Except ApiError Store :=
  if enrolled st.students r.studentId then
    .ok { st with
      records := st.records ++ [mkAttendanceRecord st.nextRecordId sid r],
      nextRecordId := st.nextRecordId + 1 }
  else
    .error .persistenceError

/-- The `for (const record of attendanceRecords)` loop of inserts. -/
def insertRecordsTx (st : Store) (sid : Nat) :
    List RecordInput → Except ApiError Store
  | [] => .ok st
  | r :: rs =>
    match insertRecordTx st sid r with
    | .ok st1 => insertRecordsTx st1 sid rs
    | .error e => .error e

/-- The `attendance_sessions` row built by the `INSERT` of the
transaction (`session_date` := today, `total_students` := the number of
submitted records, destructuring defaults for `section` and
`session_type`). -/
def mkSession (st : Store) (userId : Nat) (today : Int) (subj : String)
    (secF tyF : Option String) (sd : SessionData) (n : Nat) :
    AttendanceSession :=
  ⟨st.nextSessionId, userId, subj, secF.getD "S33", today,
    tyF.getD "offline", sd.startTime, sd.endTime, sd.duration, n⟩

/-- `POST /api/attendance/save`.

* The guard `if (!sessionData || !attendanceRecords || !subject)` keys
  on JS truthiness: an absent field is falsy, and so is the empty
  string for `subject`; an empty `attendanceRecords` array is truthy.
* The transaction inserts the session row (`total_students` :=
  `attendanceRecords.length`, `session_date` := today) and then the
  record rows; any failure rolls everything back (the caller's store is
  unchanged — see `storeAfter`) and surfaces as `persistenceError`
  (HTTP 500 `Failed to save attendance`). -/
def recordSession (st : Store) (userId : Nat) (today : Int)
    (req : SaveRequest) : Except ApiError (Store × Nat) :=
  match req.sessionData, req.attendanceRecords, req.subject with
  | some sd, some recs, some subj =>
    if subj = "" then .error .validationError
    else if st.users.contains userId then
      let sid := st.nextSessionId
      let sess : AttendanceSession :=
        mkSession st userId today subj req.sectionField req.sessionTypeField
          sd recs.length
      let st1 : Store :=
        { st with sessions := st.sessions ++ [sess], nextSessionId := sid + 1 }
      match insertRecordsTx st1 sid recs with
      | .ok st2 => .ok (st2, sid)
      | .error _ => .error .persistenceError
    else .error .persistenceError
  | _, _, _ => .error .validationError

/-- The durable store after the call: on success the committed store, on
any error the original store (`ROLLBACK` — the tentative inserts are
discarded). -/
def storeAfter (st : Store) (userId : Nat) (today : Int)
    (req : SaveRequest) : Store :=
  match recordSession st userId today req with
  | .ok (st2, _) => st2
  | .error _ => st

/-- The record rows the loop appends on success: one per input, with
consecutive `record_id`s from `rid` and all pointing at session
`sid`. -/
def buildRecords (rid sid : Nat) : List RecordInput → List AttendanceRecord
  | [] => []
  | r :: rs => mkAttendanceRecord rid sid r :: buildRecords (rid + 1) sid rs

/-- `SELECT * FROM attendance_records WHERE session_id = sid`. -/
def recordsOf (st : Store) (sid : Nat) : List AttendanceRecord :=
  st.records.filter (fun r => r.session_id == sid)

/-- Well-formedness maintained by the `SERIAL` sequences: every existing
row's `session_id` is below the sequence's next value. -/
def Store.WF (st : Store) : Prop :=
  (∀ s ∈ st.sessions, s.session_id < st.nextSessionId) ∧
  (∀ r ∈ st.records, r.session_id < st.nextSessionId)

instance (st : Store) : Decidable st.WF := by
  unfold Store.WF; infer_instance

/-! ## `GET /api/attendance/analytics` -/

/-- `attendance_sessions s LEFT JOIN attendance_records ar ON
s.session_id = ar.session_id` restricted to one left row `s`: a session
with no records yields the single row `(s, none)` (the `NULL`-padded
row), otherwise one row per matching record. -/
def leftJoinRecords (st : Store) (s : AttendanceSession) :
    List (AttendanceSession × Option AttendanceRecord) :=
  match recordsOf st s.session_id with
  | [] => [(s, none)]
  | rs => rs.map (fun r => (s, some r))

/-- Join rows of the trend query: sessions of the last 30 days
(`WHERE s.session_date >= CURRENT_DATE - INTERVAL '30 days'`), left
joined with their records. -/
def trendJoinRows (st : Store) (today : Int) :
    List (AttendanceSession × Option AttendanceRecord) :=
  (st.sessions.filter (fun s => today - 30 ≤ s.session_date)).flatMap
    (leftJoinRecords st)

/-- `CASE WHEN ar.status = 'present' THEN 1 ELSE 0 END * 100` on a join
row: a `NULL` record (`none`) falls to the `ELSE` branch, hence `0`. -/
def trendScore : Option AttendanceRecord → ℚ
  | some r => if r.status = "present" then 100 else 0
  | none => 0

/-- `ar.status = 'present'` on a join row (false on the `NULL` row). -/
def isPresentOpt : Option AttendanceRecord → Bool
  | some r => r.status == "present"
  | none => false

/-- One output row of the trend query. -/
structure TrendRow where
  session_date : Int
  total_sessions : Nat
  attendance_rate : ℚ
  deriving Repr, DecidableEq

/-- `GROUP BY session_date ORDER BY session_date`: the distinct dates of
the join rows, ascending. -/
def trendDates (st : Store) (today : Int) : List Int :=
  (((trendJoinRows st today).map (fun p => p.1.session_date)).dedup).insertionSort
    (fun a b => a ≤ b)

/-- The join rows of one date group. -/
def trendGroup (st : Store) (today : Int) (d : Int) :
    List (AttendanceSession × Option AttendanceRecord) :=
  (trendJoinRows st today).filter (fun p => p.1.session_date == d)

/-- The trend query: per date, `COUNT(*)` over the group's join rows and
`AVG` of `trendScore`. -/
def trendQuery (st : Store) (today : Int) : List TrendRow :=
  (trendDates st today).map (fun d =>
    ⟨d, (trendGroup st today d).length,
      ((trendGroup st today d).map (fun p => trendScore p.2)).sum
        / ((trendGroup st today d).length : ℚ)⟩)

/-- Written after the spec's words (refinement comparison only):
`total_sessions` as the count of distinct sessions on that date within
the window. -/
def trendTotalSessionsSpec (st : Store) (today : Int) (d : Int) : Nat :=
  (((st.sessions.filter (fun s =>
      (s.session_date == d) && decide (today - 30 ≤ s.session_date))).map
    (fun s => s.session_id)).dedup).length

/-- Join rows of the engagement query: inner join of last-7-days
sessions with their records. -/
def engagementRows (st : Store) (today : Int) :
    List (AttendanceSession × AttendanceRecord) :=
  (st.sessions.filter (fun s => today - 7 ≤ s.session_date)).flatMap
    (fun s => (recordsOf st s.session_id).map (fun r => (s, r)))

/-- One output row of the engagement query. -/
structure EngagementRow where
  section_ : String
  avg_engagement : ℚ
  present_count : Nat
  total_count : Nat
  deriving Repr, DecidableEq

/-- `GROUP BY s.section`: the distinct sections of the join rows. -/
def engagementSections (st : Store) (today : Int) : List String :=
  ((engagementRows st today).map (fun p => p.1.section_)).dedup

/-- The join rows of one section group. -/
def engagementGroup (st : Store) (today : Int) (sec : String) :
    List (AttendanceSession × AttendanceRecord) :=
  (engagementRows st today).filter (fun p => p.1.section_ == sec)

/-- The engagement query: per section, `AVG(ar.confidence_score)`,
`COUNT(CASE WHEN ar.status = 'present' THEN 1 END)` and `COUNT(*)`. -/
def engagementQuery (st : Store) (today : Int) : List EngagementRow :=
  (engagementSections st today).map (fun sec =>
    ⟨sec,
      ((engagementGroup st today sec).map
          (fun p => p.2.confidence_score)).sum
        / ((engagementGroup st today sec).length : ℚ),
      ((engagementGroup st today sec).filter
          (fun p => p.2.status == "present")).length,
      (engagementGroup st today sec).length⟩)

/-- `SELECT * FROM attendance_records WHERE student_id = sid`. -/
def studentRecords (st : Store) (sid : String) : List AttendanceRecord :=
  st.records.filter (fun r => r.student_id == sid)

/-- `SELECT * FROM attendance_sessions WHERE session_id = sid`. -/
def sessionsOf (st : Store) (sid : Nat) : List AttendanceSession :=
  st.sessions.filter (fun s => s.session_id == sid)

/-- `students st LEFT JOIN attendance_records ar ON st.student_id =
ar.student_id`. -/
def riskJoin1 (st : Store) : List (Student × Option AttendanceRecord) :=
  st.students.flatMap (fun stu =>
    match studentRecords st stu.student_id with
    | [] => [(stu, none)]
    | rs => rs.map (fun r => (stu, some r)))

/-- `… LEFT JOIN attendance_sessions s ON ar.session_id = s.session_id`:
when `ar` is the `NULL` row the `ON` condition cannot hold, so `s` is
`NULL` too. -/
def riskJoin2 (st : Store) :
    List (Student × Option AttendanceRecord × Option AttendanceSession) :=
  (riskJoin1 st).flatMap (fun p =>
    match p.2 with
    | none => [(p.1, none, none)]
    | some r =>
      match sessionsOf st r.session_id with
      | [] => [(p.1, some r, none)]
      | ss => ss.map (fun s => (p.1, some r, some s)))

/-- `WHERE s.session_date >= CURRENT_DATE - INTERVAL '30 days'` with SQL
`NULL` semantics: a `NULL` session never passes. -/
def riskWherePass (today : Int) : Option AttendanceSession → Bool
  | some s => today - 30 ≤ s.session_date
  | none => false

/-- The join rows of the at-risk query surviving the `WHERE`. -/
def riskRows (st : Store) (today : Int) :
    List (Student × Option AttendanceRecord × Option AttendanceSession) :=
  (riskJoin2 st).filter (fun p => riskWherePass today p.2.2)

/-- The at-risk join rows contributed by one student once the `WHERE`
has effectively turned the left joins into inner joins: one row per
(record of the student, window session of that record) pair. -/
def riskInner (st : Store) (today : Int) (stu : Student) :
    List (Student × Option AttendanceRecord × Option AttendanceSession) :=
  (studentRecords st stu.student_id).flatMap (fun r =>
    ((sessionsOf st r.session_id).filter
        (fun s => decide (today - 30 ≤ s.session_date))).map
      (fun s => (stu, some r, some s)))

/-- Weight of an at-risk join row given a weight on records (the `NULL`
row weighs nothing). -/
def riskWeight {M : Type} [AddCommMonoid M] (w : AttendanceRecord → M)
    (p : Student × Option AttendanceRecord × Option AttendanceSession) :
    M :=
  match p.2.1 with
  | some r => w r
  | none => 0

/-- One output row of the at-risk query. -/
structure RiskRow where
  full_name : String
  student_id : String
  total_sessions : Nat
  attended_sessions : Nat
  attendance_percentage : ℚ
  deriving Repr, DecidableEq

/-- `GROUP BY st.student_id, st.full_name`: the distinct grouping keys
of the surviving join rows. -/
def riskKeys (st : Store) (today : Int) : List (String × String) :=
  ((riskRows st today).map (fun p => (p.1.student_id, p.1.full_name))).dedup

/-- The join rows of one student group. -/
def riskGroup (st : Store) (today : Int) (k : String × String) :
    List (Student × Option AttendanceRecord × Option AttendanceSession) :=
  (riskRows st today).filter
    (fun p => p.1.student_id == k.1 && p.1.full_name == k.2)

/-- `CASE WHEN ar.status = 'present' THEN 1 END` counts a join row iff
its record is non-`NULL` with status `present`. -/
def isPresentRisk
    (p : Student × Option AttendanceRecord × Option AttendanceSession) :
    Bool :=
  match p.2.1 with
  | some r => r.status == "present"
  | none => false

/-- One aggregated group row: `COUNT(*)`, the `present` count, and
`attendance_percentage = present * 100.0 / COUNT(*)`. -/
def riskRowOf (st : Store) (today : Int) (k : String × String) : RiskRow :=
  ⟨k.2, k.1, (riskGroup st today k).length,
    ((riskGroup st today k).filter isPresentRisk).length,
    ((((riskGroup st today k).filter isPresentRisk).length : ℚ) * 100)
      / ((riskGroup st today k).length : ℚ)⟩

/-- The grouped rows surviving `HAVING … < 75`. -/
def riskUnsorted (st : Store) (today : Int) : List RiskRow :=
  ((riskKeys st today).map (riskRowOf st today)).filter
    (fun rr => rr.attendance_percentage < 75)

/-- `ORDER BY attendance_percentage ASC`. -/
def riskLE (a b : RiskRow) : Prop :=
  a.attendance_percentage ≤ b.attendance_percentage

instance : DecidableRel riskLE := fun a b =>
  inferInstanceAs (Decidable (a.attendance_percentage ≤ b.attendance_percentage))

instance : IsTotal RiskRow riskLE :=
  ⟨fun a b => le_total a.attendance_percentage b.attendance_percentage⟩

instance : IsTrans RiskRow riskLE :=
  ⟨fun _ _ _ h1 h2 => le_trans h1 h2⟩

/-- The at-risk query result. -/
def riskQuery (st : Store) (today : Int) : List RiskRow :=
  (riskUnsorted st today).insertionSort riskLE

/-- The analytics response body (`trends`, `engagement`,
`riskStudents`). -/
structure AnalyticsResponse where
  trends : List TrendRow
  engagement : List EngagementRow
  riskStudents : List RiskRow
  deriving Repr, DecidableEq

/-- Outcome of the analytics handler: the single JSON response, or the
500 (`PersistenceError`) from the shared `catch`. -/
inductive AnalyticsResult where
  | success (payload : AnalyticsResponse)
  | persistenceError
  deriving Repr, DecidableEq

/-- The handler runs the three queries in sequence inside one `try`; the
flags model the only failure PostgreSQL can inject (a thrown query).  A
throw at any of the three `await`s jumps to the `catch` before
`res.json` is reached, so no partial response exists. -/
def getAnalytics (st : Store) (today : Int)
    (trendFails engagementFails riskFails : Bool) : AnalyticsResult :=
  if trendFails then .persistenceError
  else if engagementFails then .persistenceError
  else if riskFails then .persistenceError
  else .success ⟨trendQuery st today, engagementQuery st today, riskQuery st today⟩

/-- The three status strings of the schema's enumeration comment. -/
def allowedStatus (s : String) : Bool :=
  s == "present" || s == "partial" || s == "absent"

/-- The records joined to a last-7-days session of section `sec`: the
base data the engagement aggregate describes (one entry per record whose
session lies in the window and carries the section). -/
def sectionWindowRecords (st : Store) (today : Int) (sec : String) :
    List AttendanceRecord :=
  st.records.filter (fun r =>
    st.sessions.any (fun s =>
      (r.session_id == s.session_id) &&
        ((s.section_ == sec) && decide (today - 7 ≤ s.session_date))))

/-- A student's records joined to a last-30-days session: the base data
the at-risk aggregate describes. -/
def windowRecords (st : Store) (today : Int) (sid : String) :
    List AttendanceRecord :=
  (st.records.filter (fun r => r.student_id == sid)).filter (fun r =>
    st.sessions.any (fun s =>
      decide (today - 30 ≤ s.session_date) && (s.session_id == r.session_id)))

/-! ## Concrete example data (schema sample rows, shrunk) -/

/-- Enrolled student, as in the schema's sample data. -/
def stuA : Student := ⟨"STU001", "John Doe", "S33"⟩

/-- A second enrolled student. -/
def stuB : Student := ⟨"STU002", "Jane Smith", "S33"⟩

/-- Store with one teacher (`user_id = 1`) and two enrolled students,
no sessions or records yet. -/
def exStore0 : Store := ⟨[1], [stuA, stuB], [], [], 1, 1⟩

/-- A well-formed `sessionData` object. -/
def exSessionData : SessionData := ⟨some 540, some 600, some 60⟩

/-- A `present` record for the enrolled `STU001`. -/
def recPresentA : RecordInput :=
  ⟨"STU001", "present", 5, 17/20, some 540, some 590⟩

/-- A `partial` record for the enrolled `STU002`. -/
def recPartialB : RecordInput :=
  ⟨"STU002", "partial", 2, 13/20, some 550, some 560⟩

/-- A record referencing an unenrolled student id. -/
def recGhost : RecordInput := ⟨"GHOST", "present", 1, 1/2, none, none⟩

/-- A record with an out-of-enum status. -/
def recLate : RecordInput := ⟨"STU001", "late", 1, 1/2, none, none⟩

/-- A well-shaped save request around a record list. -/
def reqOf (rs : List RecordInput) : SaveRequest :=
  ⟨some exSessionData, some rs, some "Math", none, none⟩

/-- Store for the trend counterexample: one session on day 0 carrying
two `present` records. -/
def exStoreTrend : Store :=
  ⟨[1], [stuA, stuB],
    [⟨1, 1, "Math", "S33", 0, "offline", some 540, some 600, some 60, 2⟩],
    [⟨1, 1, "STU001", "present", 5, 17/20, some 540, some 590⟩,
     ⟨2, 1, "STU002", "present", 4, 39/50, some 545, some 595⟩],
    2, 3⟩

/-- Store with a single record-less session on day 0. -/
def exStoreEmptySession : Store :=
  ⟨[1], [stuA, stuB],
    [⟨1, 1, "Math", "S33", 0, "offline", some 540, some 600, some 60, 0⟩],
    [], 2, 1⟩

/-- `exStoreTrend` after saving one further session with a single
`present` record for `STU001`. -/
def exStoreTrendAfter : Store :=
  ⟨[1], [stuA, stuB],
    [⟨1, 1, "Math", "S33", 0, "offline", some 540, some 600, some 60, 2⟩,
     ⟨2, 1, "Math", "S33", 0, "offline", some 540, some 600, some 60, 1⟩],
    [⟨1, 1, "STU001", "present", 5, 17/20, some 540, some 590⟩,
     ⟨2, 1, "STU002", "present", 4, 39/50, some 545, some 595⟩,
     ⟨3, 2, "STU001", "present", 5, 17/20, some 540, some 590⟩],
    3, 4⟩

/-- `exStore0` after saving a session whose single record carries the
out-of-enum status `late`. -/
def exStoreLateAfter : Store :=
  ⟨[1], [stuA, stuB],
    [⟨1, 1, "Math", "S33", 0, "offline", some 540, some 600, some 60, 1⟩],
    [⟨1, 1, "STU001", "late", 1, 1/2, none, none⟩],
    2, 2⟩

/-- Well-shaped request whose `subject` is present but the empty
string. -/
def reqEmptySubject : SaveRequest :=
  ⟨some exSessionData, some [recPresentA], some "", none, none⟩

/-- The spec's engagement scenario: one session of section `S33` on
day 0 with five records — three `present`, one `partial`, one
`absent`. -/
def exStoreEngagement : Store :=
  ⟨[1],
    [⟨"STU001", "John Doe", "S33"⟩, ⟨"STU002", "Jane Smith", "S33"⟩,
     ⟨"STU003", "Mike Johnson", "S33"⟩, ⟨"STU004", "Sarah Wilson", "S33"⟩,
     ⟨"STU005", "David Brown", "S33"⟩],
    [⟨1, 1, "Computer Science", "S33", 0, "offline", some 540, some 600,
      some 60, 5⟩],
    [⟨1, 1, "STU001", "present", 5, 17/20, some 540, some 590⟩,
     ⟨2, 1, "STU002", "present", 4, 39/50, some 545, some 595⟩,
     ⟨3, 1, "STU003", "partial", 2, 13/20, some 550, some 560⟩,
     ⟨4, 1, "STU004", "absent", 0, 0, none, none⟩,
     ⟨5, 1, "STU005", "present", 6, 23/25, some 541, some 596⟩],
    2, 6⟩

/-- Two sessions on day 0; `STU001` attends one of two (50% — at risk),
`STU002` attends both (100% — not at risk). -/
def exStoreRisk : Store :=
  ⟨[1], [stuA, stuB],
    [⟨1, 1, "Math", "S33", 0, "offline", some 540, some 600, some 60, 2⟩,
     ⟨2, 1, "Math", "S33", 0, "offline", some 540, some 600, some 60, 2⟩],
    [⟨1, 1, "STU001", "present", 5, 17/20, some 540, some 590⟩,
     ⟨2, 1, "STU002", "present", 4, 39/50, some 545, some 595⟩,
     ⟨3, 2, "STU001", "absent", 0, 0, none, none⟩,
     ⟨4, 2, "STU002", "present", 3, 7/10, some 550, some 580⟩],
    3, 5⟩

/-! ## Transaction lemmas -/

theorem buildRecords_length (sid : Nat) :
    ∀ (recs : List RecordInput) (rid : Nat),
      (buildRecords rid sid recs).length = recs.length
  | [], _ => rfl
  | _ :: rs, rid => by
    simp [buildRecords, buildRecords_length sid rs (rid + 1)]

theorem buildRecords_session_id (sid : Nat) :
    ∀ (recs : List RecordInput) (rid : Nat),
      ∀ r ∈ buildRecords rid sid recs, r.session_id = sid
  | [], _ => by simp [buildRecords]
  | r0 :: rs, rid => by
    intro r hr
    simp only [buildRecords, List.mem_cons] at hr
    rcases hr with h | h
    · subst h; rfl
    · exact buildRecords_session_id sid rs (rid + 1) r h

theorem buildRecords_status (sid : Nat) :
    ∀ (recs : List RecordInput) (rid : Nat),
      (buildRecords rid sid recs).map (fun r => r.status)
        = recs.map (fun r => r.status)
  | [], _ => rfl
  | r0 :: rs, rid => by
    simp [buildRecords, mkAttendanceRecord,
      buildRecords_status sid rs (rid + 1)]

theorem buildRecords_student_id (sid : Nat) :
    ∀ (recs : List RecordInput) (rid : Nat),
      (buildRecords rid sid recs).map (fun r => r.student_id)
        = recs.map (fun r => r.studentId)
  | [], _ => rfl
  | r0 :: rs, rid => by
    simp [buildRecords, mkAttendanceRecord,
      buildRecords_student_id sid rs (rid + 1)]

/-- A successful run of the record-insert loop appends exactly the built
rows and touches nothing else. -/
theorem insertRecordsTx_ok_spec :
    ∀ (recs : List RecordInput) (st st2 : Store) (sid : Nat),
      insertRecordsTx st sid recs = .ok st2 →
      st2.users = st.users ∧ st2.students = st.students ∧
        st2.sessions = st.sessions ∧
        st2.nextSessionId = st.nextSessionId ∧
        st2.records = st.records ++ buildRecords st.nextRecordId sid recs ∧
        st2.nextRecordId = st.nextRecordId + recs.length
  | [], st, st2, sid, h => by
    simp only [insertRecordsTx, Except.ok.injEq] at h
    subst h
    simp [buildRecords]
  | r :: rs, st, st2, sid, h => by
    simp only [insertRecordsTx, insertRecordTx] at h
    by_cases he : enrolled st.students r.studentId
    · simp only [he, if_true] at h
      have ih := insertRecordsTx_ok_spec rs _ st2 sid h
      simp only at ih
      obtain ⟨h1, h2, h3, h4, h5, h6⟩ := ih
      refine ⟨h1, h2, h3, h4, ?_, ?_⟩
      · rw [h5]; simp [buildRecords, List.append_assoc]
      · rw [h6]; simp [List.length_cons]; omega
    · simp [he] at h

/-- If some submitted record references an unenrolled student, the
insert loop fails with the foreign-key (persistence) error. -/
theorem insertRecordsTx_error_of_unenrolled :
    ∀ (recs : List RecordInput) (st : Store) (sid : Nat) (r0 : RecordInput),
      r0 ∈ recs → enrolled st.students r0.studentId = false →
      insertRecordsTx st sid recs = .error .persistenceError
  | [], _, _, _, h, _ => by simp at h
  | r :: rs, st, sid, r0, hmem, hun => by
    simp only [insertRecordsTx, insertRecordTx]
    by_cases he : enrolled st.students r.studentId
    · simp only [he, if_true]
      rcases List.mem_cons.mp hmem with h | h
      · subst h; rw [he] at hun; cases hun
      · exact insertRecordsTx_error_of_unenrolled rs _ sid r0 h hun
    · simp [he]

/-- If every submitted record references an enrolled student, the insert
loop succeeds. -/
theorem insertRecordsTx_ok_of_enrolled :
    ∀ (recs : List RecordInput) (st : Store) (sid : Nat),
      (∀ r ∈ recs, enrolled st.students r.studentId = true) →
      ∃ st2, insertRecordsTx st sid recs = .ok st2
  | [], st, _, _ => ⟨st, rfl⟩
  | r :: rs, st, sid, hall => by
    have he : enrolled st.students r.studentId = true :=
      hall r (List.mem_cons_self r rs)
    simp only [insertRecordsTx, insertRecordTx, he, if_true]
    refine insertRecordsTx_ok_of_enrolled rs _ sid ?_
    intro r' hr'
    exact hall r' (List.mem_cons_of_mem r hr')

/-- Characterisation of a successful `recordSession`: the validation
passed, and the committed store is the original plus one session row and
its built record rows. -/
theorem recordSession_ok_spec (st st2 : Store) (uid : Nat) (today : Int)
    (req : SaveRequest) (sid : Nat)
    (h : recordSession st uid today req = .ok (st2, sid)) :
    sid = st.nextSessionId ∧
    ∃ sd recs subj,
      req.sessionData = some sd ∧ req.attendanceRecords = some recs ∧
      req.subject = some subj ∧ subj ≠ "" ∧
      uid ∈ st.users ∧
      st2.users = st.users ∧ st2.students = st.students ∧
      st2.sessions = st.sessions ++
        [mkSession st uid today subj req.sectionField req.sessionTypeField
          sd recs.length] ∧
      st2.records = st.records ++ buildRecords st.nextRecordId sid recs ∧
      st2.nextSessionId = sid + 1 ∧
      st2.nextRecordId = st.nextRecordId + recs.length := by
  unfold recordSession at h
  cases hsd : req.sessionData with
  | none => rw [hsd] at h; cases h
  | some sd =>
  cases hrecs : req.attendanceRecords with
  | none => rw [hsd, hrecs] at h; cases h
  | some recs =>
  cases hsubj : req.subject with
  | none => rw [hsd, hrecs, hsubj] at h; cases h
  | some subj =>
  rw [hsd, hrecs, hsubj] at h
  simp only at h
  by_cases hemp : subj = ""
  · simp [hemp] at h
  rw [if_neg hemp] at h
  by_cases huser : uid ∈ st.users
  · rw [if_pos (List.elem_iff.mpr huser)] at h
    cases htx : insertRecordsTx
        { st with
            sessions := st.sessions ++
              [mkSession st uid today subj req.sectionField
                req.sessionTypeField sd recs.length],
            nextSessionId := st.nextSessionId + 1 }
        st.nextSessionId recs with
    | error e => rw [htx] at h; cases h
    | ok stMid =>
      rw [htx] at h
      simp only [Except.ok.injEq, Prod.mk.injEq] at h
      obtain ⟨hst2, hsid⟩ := h
      subst hst2
      have spec := insertRecordsTx_ok_spec recs _ stMid st.nextSessionId htx
      simp only at spec
      obtain ⟨h1, h2, h3, h4, h5, h6⟩ := spec
      subst hsid
      exact ⟨rfl, sd, recs, subj, rfl, rfl, rfl, hemp, huser, h1, h2,
        h3, h5, h4, h6⟩
  · rw [if_neg (fun hc => huser (List.elem_iff.mp hc))] at h
    cases h

/-- A well-shaped request whose records all reference enrolled students
commits successfully and returns the sequence's next session id. -/
theorem recordSession_ok_of_valid (st : Store) (uid : Nat) (today : Int)
    (req : SaveRequest) (sd : SessionData) (recs : List RecordInput)
    (subj : String)
    (hsd : req.sessionData = some sd)
    (hrecs : req.attendanceRecords = some recs)
    (hsubj : req.subject = some subj) (hemp : subj ≠ "")
    (huser : uid ∈ st.users)
    (hall : ∀ r ∈ recs, enrolled st.students r.studentId = true) :
    ∃ st2, recordSession st uid today req = .ok (st2, st.nextSessionId) := by
  unfold recordSession
  rw [hsd, hrecs, hsubj]
  simp only
  rw [if_neg hemp, if_pos (List.elem_iff.mpr huser)]
  obtain ⟨st2, htx⟩ :=
    insertRecordsTx_ok_of_enrolled recs
      { st with
          sessions := st.sessions ++
            [mkSession st uid today subj req.sectionField
              req.sessionTypeField sd recs.length],
          nextSessionId := st.nextSessionId + 1 }
      st.nextSessionId (fun r hr => hall r hr)
  rw [htx]
  exact ⟨st2, rfl⟩

/-- The committed store of a successful call is well formed again. -/
theorem recordSession_preserves_WF (st st2 : Store) (uid : Nat)
    (today : Int) (req : SaveRequest) (sid : Nat) (hwf : st.WF)
    (h : recordSession st uid today req = .ok (st2, sid)) : st2.WF := by
  obtain ⟨hsid, sd, recs, subj, _, _, _, _, _, _, _, hsess, hrecs2,
    hnext, _⟩ := recordSession_ok_spec st st2 uid today req sid h
  subst hsid
  constructor
  · intro s hs
    rw [hsess] at hs
    rcases List.mem_append.mp hs with hold | hnew
    · have := hwf.1 s hold
      omega
    · simp only [List.mem_singleton] at hnew
      subst hnew
      rw [hnext]
      simp [mkSession]
  · intro r hr
    rw [hrecs2] at hr
    rcases List.mem_append.mp hr with hold | hnew
    · have := hwf.2 r hold
      omega
    · have := buildRecords_session_id st.nextSessionId recs
        st.nextRecordId r hnew
      omega

/-- The records of the freshly created session are exactly the built
rows (the pre-existing records cannot collide with the fresh id). -/
theorem recordsOf_new (st st2 : Store) (uid : Nat) (today : Int)
    (req : SaveRequest) (sid : Nat) (recs : List RecordInput)
    (hwf : st.WF)
    (h : recordSession st uid today req = .ok (st2, sid))
    (hrecs : req.attendanceRecords = some recs) :
    recordsOf st2 sid = buildRecords st.nextRecordId sid recs := by
  obtain ⟨hsid, sd, recs', subj, _, hrecs', _, _, _, _, _, _, hrec2,
    _, _⟩ := recordSession_ok_spec st st2 uid today req sid h
  rw [hrecs] at hrecs'
  cases hrecs'
  unfold recordsOf
  rw [hrec2, List.filter_append]
  have hold : st.records.filter (fun r => r.session_id == sid) = [] := by
    rw [List.filter_eq_nil_iff]
    intro r hr
    have := hwf.2 r hr
    simp only [beq_iff_eq]
    omega
  have hnew : (buildRecords st.nextRecordId sid recs).filter
      (fun r => r.session_id == sid) = buildRecords st.nextRecordId sid recs := by
    rw [List.filter_eq_self]
    intro r hr
    simp only [beq_iff_eq]
    exact buildRecords_session_id sid recs st.nextRecordId r hr
  rw [hold, hnew, List.nil_append]

/-- Records of any other session id are untouched by a successful
call. -/
theorem recordsOf_frame (st st2 : Store) (uid : Nat) (today : Int)
    (req : SaveRequest) (sid sid' : Nat)
    (h : recordSession st uid today req = .ok (st2, sid))
    (hne : sid' ≠ sid) :
    recordsOf st2 sid' = recordsOf st sid' := by
  obtain ⟨hsid, sd, recs, subj, _, _, _, _, _, _, _, _, hrec2, _, _⟩ :=
    recordSession_ok_spec st st2 uid today req sid h
  unfold recordsOf
  rw [hrec2, List.filter_append]
  have hnew : (buildRecords st.nextRecordId sid recs).filter
      (fun r => r.session_id == sid') = [] := by
    rw [List.filter_eq_nil_iff]
    intro r hr
    have := buildRecords_session_id sid recs st.nextRecordId r hr
    simp only [beq_iff_eq]
    omega
  rw [hnew, List.append_nil]

/-! ## Claims about the write path -/

/-- C1: `recordSession` is atomic: on any error (in particular a
foreign-key violation on an unenrolled `studentId`, which surfaces as a
`PersistenceError`) the durable store is unchanged — the session row is
rolled back with the record rows — and on success the session row and
every submitted record row all exist. -/
theorem claim_C1_atomicity (st : Store) (uid : Nat) (today : Int)
    (req : SaveRequest) :
    (∀ e, recordSession st uid today req = .error e →
      storeAfter st uid today req = st) ∧
    (∀ st2 sid, recordSession st uid today req = .ok (st2, sid) →
      storeAfter st uid today req = st2 ∧
      ∃ sd recs subj,
        req.sessionData = some sd ∧ req.attendanceRecords = some recs ∧
        req.subject = some subj ∧
        st2.sessions = st.sessions ++
          [mkSession st uid today subj req.sectionField
            req.sessionTypeField sd recs.length] ∧
        st2.records = st.records ++ buildRecords st.nextRecordId sid recs) ∧
    (∀ sd recs subj r0, req.sessionData = some sd →
      req.attendanceRecords = some recs → req.subject = some subj →
      subj ≠ "" → r0 ∈ recs →
      enrolled st.students r0.studentId = false →
      recordSession st uid today req = .error .persistenceError ∧
      storeAfter st uid today req = st) := by
  refine ⟨?_, ?_, ?_⟩
  · intro e he
    simp [storeAfter, he]
  · intro st2 sid h
    obtain ⟨hsid, sd, recs, subj, h1, h2, h3, _, _, _, _, hsess, hrec,
      _, _⟩ := recordSession_ok_spec st st2 uid today req sid h
    exact ⟨by simp [storeAfter, h], sd, recs, subj, h1, h2, h3, hsess, hrec⟩
  · intro sd recs subj r0 hsd hrecs hsubj hemp hmem hun
    have herr : recordSession st uid today req = .error .persistenceError := by
      unfold recordSession
      rw [hsd, hrecs, hsubj]
      simp only
      rw [if_neg hemp]
      by_cases huser : uid ∈ st.users
      · rw [if_pos (List.elem_iff.mpr huser)]
        rw [insertRecordsTx_error_of_unenrolled recs
          { st with
              sessions := st.sessions ++
                [mkSession st uid today subj req.sectionField
                  req.sessionTypeField sd recs.length],
              nextSessionId := st.nextSessionId + 1 }
          st.nextSessionId r0 hmem hun]
      · rw [if_neg (fun hc => huser (List.elem_iff.mp hc))]
    exact ⟨herr, by simp [storeAfter, herr]⟩

theorem claim_C1_witness :
    recordSession exStore0 1 0 (reqOf [recPresentA, recGhost])
      = .error .persistenceError ∧
    storeAfter exStore0 1 0 (reqOf [recPresentA, recGhost]) = exStore0 :=
  (claim_C1_atomicity exStore0 1 0 (reqOf [recPresentA, recGhost])).2.2
    exSessionData [recPresentA, recGhost] "Math" recGhost rfl rfl rfl
    (by decide) (List.mem_cons_of_mem _ (List.mem_cons_self _ _)) rfl

/-- C2: the created session's `total_students` equals the number of
record rows persisted for it, and the same equality keeps holding for
every pre-existing session after a further successful call (nothing
updates it independently). -/
theorem claim_C2_total_students (st st2 : Store) (uid : Nat)
    (today : Int) (req : SaveRequest) (sid : Nat) (hwf : st.WF)
    (h : recordSession st uid today req = .ok (st2, sid)) :
    (∃ sess ∈ st2.sessions, sess.session_id = sid ∧
      sess.total_students = (recordsOf st2 sid).length) ∧
    (∀ sess ∈ st.sessions,
      sess.total_students = (recordsOf st sess.session_id).length →
      sess ∈ st2.sessions ∧
      sess.total_students = (recordsOf st2 sess.session_id).length) := by
  obtain ⟨hsid, sd, recs, subj, hsd, hrecs, hsubj, _, _, _, _, hsess,
    _, _, _⟩ := recordSession_ok_spec st st2 uid today req sid h
  constructor
  · refine ⟨mkSession st uid today subj req.sectionField
      req.sessionTypeField sd recs.length, ?_, ?_, ?_⟩
    · rw [hsess]; simp
    · rw [hsid]; rfl
    · rw [recordsOf_new st st2 uid today req sid recs hwf h hrecs,
        buildRecords_length]
      rfl
  · intro sess hmem hinv
    have hlt : sess.session_id < st.nextSessionId := hwf.1 sess hmem
    have hne : sess.session_id ≠ sid := by omega
    refine ⟨by rw [hsess]; exact List.mem_append_left _ hmem, ?_⟩
    rw [recordsOf_frame st st2 uid today req sid sess.session_id h hne]
    exact hinv

theorem claim_C2_witness :
    (∃ sess ∈ exStoreTrendAfter.sessions, sess.session_id = 2 ∧
      sess.total_students = (recordsOf exStoreTrendAfter 2).length) ∧
    (∀ sess ∈ exStoreTrend.sessions,
      sess.total_students = (recordsOf exStoreTrend sess.session_id).length →
      sess ∈ exStoreTrendAfter.sessions ∧
      sess.total_students
        = (recordsOf exStoreTrendAfter sess.session_id).length) :=
  claim_C2_total_students exStoreTrend exStoreTrendAfter 1 0
    (reqOf [recPresentA]) 2 (by decide) rfl

/-- C5 as stated is false: the handler never inspects `status`, so a
record whose status is outside the enumeration does not produce a
`ValidationError` — the call succeeds and the row is persisted with the
unknown status. -/
theorem claim_C5_counterexample :
    allowedStatus recLate.status = false ∧
    recordSession exStore0 1 0 (reqOf [recLate])
      ≠ .error .validationError ∧
    recordSession exStore0 1 0 (reqOf [recLate])
      = .ok (exStoreLateAfter, 1) ∧
    ∃ r ∈ exStoreLateAfter.records, r.status = "late" := by
  have hok : recordSession exStore0 1 0 (reqOf [recLate])
      = .ok (exStoreLateAfter, 1) := rfl
  refine ⟨rfl, ?_, hok, ⟨1, 1, "STU001", "late", 1, 1/2, none, none⟩,
    List.mem_singleton.mpr rfl, rfl⟩
  rw [hok]
  intro hcontra
  cases hcontra

/-- C5 amended: `recordSession` performs no status validation; a
well-shaped call whose records all reference enrolled students succeeds
even when some record's status is outside
{`present`, `partial`, `absent`}, and every record is persisted with its
submitted status verbatim. -/
theorem claim_C5_no_status_validation (st : Store) (uid : Nat)
    (today : Int) (req : SaveRequest) (sd : SessionData)
    (recs : List RecordInput) (subj : String) (hwf : st.WF)
    (hsd : req.sessionData = some sd)
    (hrecs : req.attendanceRecords = some recs)
    (hsubj : req.subject = some subj) (hemp : subj ≠ "")
    (huser : uid ∈ st.users)
    (hall : ∀ r ∈ recs, enrolled st.students r.studentId = true)
    (_hbad : ∃ r ∈ recs, allowedStatus r.status = false) :
    ∃ st2, recordSession st uid today req = .ok (st2, st.nextSessionId) ∧
      (recordsOf st2 st.nextSessionId).map (fun r => r.status)
        = recs.map (fun r => r.status) := by
  obtain ⟨st2, h⟩ := recordSession_ok_of_valid st uid today req sd recs
    subj hsd hrecs hsubj hemp huser hall
  refine ⟨st2, h, ?_⟩
  rw [recordsOf_new st st2 uid today req st.nextSessionId recs hwf h hrecs,
    buildRecords_status]

theorem claim_C5_witness :
    ∃ st2, recordSession exStore0 1 0 (reqOf [recLate]) = .ok (st2, 1) ∧
      (recordsOf st2 1).map (fun r => r.status)
        = [recLate].map (fun r => r.status) :=
  claim_C5_no_status_validation exStore0 1 0 (reqOf [recLate])
    exSessionData [recLate] "Math" (by decide) rfl rfl rfl (by decide)
    (by decide) (by decide) ⟨recLate, List.mem_singleton.mpr rfl, rfl⟩

/-- C6 as stated is false: the guard keys on JS truthiness, so a
`subject` that is present but equal to the empty string also produces
the `ValidationError`, although no field is missing/undefined. -/
theorem claim_C6_counterexample :
    reqEmptySubject.sessionData ≠ none ∧
    reqEmptySubject.attendanceRecords ≠ none ∧
    reqEmptySubject.subject ≠ none ∧
    recordSession exStore0 1 0 reqEmptySubject
      = .error .validationError := by
  refine ⟨?_, ?_, ?_, rfl⟩ <;> intro h <;> cases h

/-- C6 amended: `recordSession` fails with `ValidationError` exactly
when `sessionData` is missing, `attendanceRecords` is missing, or
`subject` is missing or the empty string; an empty `attendanceRecords`
array is not a validation failure — with a valid subject and teacher it
creates a session with `total_students = 0` and adds no record rows. -/
theorem claim_C6_validation (st : Store) (uid : Nat) (today : Int)
    (req : SaveRequest) :
    (recordSession st uid today req = .error .validationError ↔
      req.sessionData = none ∨ req.attendanceRecords = none ∨
      req.subject = none ∨ req.subject = some "") ∧
    (∀ sd subj, req.sessionData = some sd →
      req.attendanceRecords = some [] → req.subject = some subj →
      subj ≠ "" → uid ∈ st.users →
      ∃ st2, recordSession st uid today req = .ok (st2, st.nextSessionId) ∧
        st2.records = st.records ∧
        ∃ sess, st2.sessions = st.sessions ++ [sess] ∧
          sess.session_id = st.nextSessionId ∧
          sess.total_students = 0) := by
  constructor
  · constructor
    · intro h
      unfold recordSession at h
      cases hsd : req.sessionData with
      | none => exact Or.inl rfl
      | some sd =>
      cases hrecs : req.attendanceRecords with
      | none => exact Or.inr (Or.inl rfl)
      | some recs =>
      cases hsubj : req.subject with
      | none => exact Or.inr (Or.inr (Or.inl rfl))
      | some subj =>
      rw [hsd, hrecs, hsubj] at h
      simp only at h
      by_cases hemp : subj = ""
      · subst hemp; exact Or.inr (Or.inr (Or.inr rfl))
      rw [if_neg hemp] at h
      by_cases huser : uid ∈ st.users
      · rw [if_pos (List.elem_iff.mpr huser)] at h
        cases htx : insertRecordsTx
            { st with
                sessions := st.sessions ++
                  [mkSession st uid today subj req.sectionField
                    req.sessionTypeField sd recs.length],
                nextSessionId := st.nextSessionId + 1 }
            st.nextSessionId recs with
        | ok stMid => rw [htx] at h; cases h
        | error e => rw [htx] at h; cases h
      · rw [if_neg (fun hc => huser (List.elem_iff.mp hc))] at h
        cases h
    · intro h
      unfold recordSession
      rcases h with h | h | h | h
      · rw [h]
      · rw [h]
        cases req.sessionData <;> rfl
      · rw [h]
        cases req.sessionData <;> cases req.attendanceRecords <;> rfl
      · rw [h]
        cases req.sessionData <;> cases req.attendanceRecords <;> rfl
  · intro sd subj hsd hrecs hsubj hemp huser
    obtain ⟨st2, h⟩ := recordSession_ok_of_valid st uid today req sd []
      subj hsd hrecs hsubj hemp huser (by intro r hr; cases hr)
    obtain ⟨hsid, sd', recs', subj', hsd', hrecs', hsubj', _, _, _, _,
      hsess, hrec, _, _⟩ :=
      recordSession_ok_spec st st2 uid today req st.nextSessionId h
    rw [hrecs] at hrecs'
    cases hrecs'
    rw [hsd] at hsd'
    cases hsd'
    rw [hsubj] at hsubj'
    cases hsubj'
    refine ⟨st2, h, ?_, ?_⟩
    · rw [hrec]; simp [buildRecords]
    · exact ⟨mkSession st uid today subj req.sectionField
        req.sessionTypeField sd 0, by simpa using hsess, rfl, rfl⟩

theorem claim_C6_witness :
    ∃ st2, recordSession exStore0 1 0 (reqOf []) = .ok (st2, 1) ∧
      st2.records = exStore0.records ∧
      ∃ sess, st2.sessions = exStore0.sessions ++ [sess] ∧
        sess.session_id = 1 ∧ sess.total_students = 0 :=
  (claim_C6_validation exStore0 1 0 (reqOf [])).2 exSessionData "Math"
    rfl rfl rfl (by decide) (by decide)

/-- C9: `recordSession` is not idempotent: running the same well-shaped
call twice from the same state succeeds both times with two distinct
session ids, each session row existing afterwards with its own set of
record rows (one row per submitted record under each id). -/
theorem claim_C9_non_idempotent (st : Store) (uid : Nat) (today : Int)
    (req : SaveRequest) (sd : SessionData) (recs : List RecordInput)
    (subj : String) (hwf : st.WF)
    (hsd : req.sessionData = some sd)
    (hrecs : req.attendanceRecords = some recs)
    (hsubj : req.subject = some subj) (hemp : subj ≠ "")
    (huser : uid ∈ st.users)
    (hall : ∀ r ∈ recs, enrolled st.students r.studentId = true) :
    ∃ st1 st2,
      recordSession st uid today req = .ok (st1, st.nextSessionId) ∧
      recordSession st1 uid today req = .ok (st2, st.nextSessionId + 1) ∧
      st.nextSessionId ≠ st.nextSessionId + 1 ∧
      (∃ s1 ∈ st2.sessions, s1.session_id = st.nextSessionId) ∧
      (∃ s2 ∈ st2.sessions, s2.session_id = st.nextSessionId + 1) ∧
      (recordsOf st2 st.nextSessionId).map (fun r => r.student_id)
        = recs.map (fun r => r.studentId) ∧
      (recordsOf st2 (st.nextSessionId + 1)).map (fun r => r.student_id)
        = recs.map (fun r => r.studentId) := by
  obtain ⟨st1, h1⟩ := recordSession_ok_of_valid st uid today req sd recs
    subj hsd hrecs hsubj hemp huser hall
  obtain ⟨hsid1, sd1, recs1, subj1, hsd1, hrecs1, hsubj1, _, _, husers1,
    hstud1, hsess1, hrec1, hnext1, _⟩ :=
    recordSession_ok_spec st st1 uid today req st.nextSessionId h1
  obtain ⟨st2, h2⟩ := recordSession_ok_of_valid st1 uid today req sd recs
    subj hsd hrecs hsubj hemp (by rw [husers1]; exact huser)
    (by rw [hstud1]; exact hall)
  obtain ⟨hsid2, sd2, recs2, subj2, hsd2, hrecs2, hsubj2, _, _, _, _,
    hsess2, _, _, _⟩ :=
    recordSession_ok_spec st1 st2 uid today req (st1.nextSessionId) h2
  have hwf1 : st1.WF :=
    recordSession_preserves_WF st st1 uid today req st.nextSessionId hwf h1
  have hframe := recordsOf_frame st1 st2 uid today req
    st1.nextSessionId st.nextSessionId h2 (by omega)
  have hnew2 := recordsOf_new st1 st2 uid today req st1.nextSessionId recs
    hwf1 h2 hrecs
  refine ⟨st1, st2, h1, by rw [← hnext1]; exact h2, by omega, ?_, ?_, ?_, ?_⟩
  · refine ⟨mkSession st uid today subj1 req.sectionField
      req.sessionTypeField sd1 recs1.length, ?_, rfl⟩
    rw [hsess2, hsess1]
    simp
  · refine ⟨mkSession st1 uid today subj2 req.sectionField
      req.sessionTypeField sd2 recs2.length, ?_, ?_⟩
    · rw [hsess2]; simp
    · simp [mkSession, hnext1]
  · rw [hframe,
      recordsOf_new st st1 uid today req st.nextSessionId recs hwf h1 hrecs,
      buildRecords_student_id]
  · rw [← hnext1, hnew2, buildRecords_student_id]

theorem claim_C9_witness :
    ∃ st1 st2,
      recordSession exStore0 1 0 (reqOf [recPresentA]) = .ok (st1, 1) ∧
      recordSession st1 1 0 (reqOf [recPresentA]) = .ok (st2, 2) ∧
      (1 : Nat) ≠ 2 ∧
      (∃ s1 ∈ st2.sessions, s1.session_id = 1) ∧
      (∃ s2 ∈ st2.sessions, s2.session_id = 2) ∧
      (recordsOf st2 1).map (fun r => r.student_id)
        = [recPresentA].map (fun r => r.studentId) ∧
      (recordsOf st2 2).map (fun r => r.student_id)
        = [recPresentA].map (fun r => r.studentId) :=
  claim_C9_non_idempotent exStore0 1 0 (reqOf [recPresentA])
    exSessionData [recPresentA] "Math" (by decide) rfl rfl rfl
    (by decide) (by decide) (by decide)

/-! ## Claims about the analytics path -/

/-- C8: the analytics handler is all-or-nothing: it answers
`persistenceError` exactly when at least one of the three sub-queries
fails, and any successful response carries all three result sets
(trend, engagement, at-risk) together — never a subset. -/
theorem claim_C8_all_or_nothing (st : Store) (today : Int)
    (tf ef rf : Bool) :
    (getAnalytics st today tf ef rf = .persistenceError ↔
      tf = true ∨ ef = true ∨ rf = true) ∧
    (getAnalytics st today false false false
      = .success ⟨trendQuery st today, engagementQuery st today,
          riskQuery st today⟩) ∧
    (∀ payload, getAnalytics st today tf ef rf = .success payload →
      payload = ⟨trendQuery st today, engagementQuery st today,
        riskQuery st today⟩) := by
  refine ⟨?_, rfl, ?_⟩
  · cases tf <;> cases ef <;> cases rf <;> simp [getAnalytics]
  · intro payload h
    cases tf <;> cases ef <;> cases rf <;> simp_all [getAnalytics]

theorem claim_C8_witness :
    getAnalytics exStoreTrend 0 true false false = .persistenceError :=
  (claim_C8_all_or_nothing exStoreTrend 0 true false false).1.mpr
    (Or.inl rfl)

/-- C10: a record-less session inside the 30-day window still shows up
in the trend aggregate — its `NULL`-padded left-join row is present,
counted in `total_sessions` for its date and scored `0` — while the
engagement aggregate's inner join produces no row for that session at
all. -/
theorem claim_C10_left_vs_inner (st : Store) (today : Int)
    (s : AttendanceSession) (hs : s ∈ st.sessions)
    (hw : today - 30 ≤ s.session_date)
    (hnorec : recordsOf st s.session_id = []) :
    (s, none) ∈ trendJoinRows st today ∧
    trendScore none = 0 ∧
    (∃ tr ∈ trendQuery st today, tr.session_date = s.session_date ∧
      tr.total_sessions = (trendGroup st today s.session_date).length ∧
      (s, none) ∈ trendGroup st today s.session_date) ∧
    (∀ p ∈ engagementRows st today, p.1.session_id ≠ s.session_id) := by
  have hsmem : s ∈ st.sessions.filter (fun s => today - 30 ≤ s.session_date) :=
    List.mem_filter.mpr ⟨hs, by simpa using hw⟩
  have hrow : (s, (none : Option AttendanceRecord)) ∈ trendJoinRows st today := by
    refine List.mem_flatMap.mpr ⟨s, hsmem, ?_⟩
    unfold leftJoinRecords
    rw [hnorec]
    exact List.mem_singleton.mpr rfl
  have hgrp : (s, (none : Option AttendanceRecord))
      ∈ trendGroup st today s.session_date :=
    List.mem_filter.mpr ⟨hrow, by simp⟩
  refine ⟨hrow, rfl, ?_, ?_⟩
  · have hd : s.session_date ∈ trendDates st today := by
      unfold trendDates
      rw [List.mem_insertionSort, List.mem_dedup]
      exact List.mem_map.mpr ⟨(s, none), hrow, rfl⟩
    exact ⟨_, List.mem_map.mpr ⟨s.session_date, hd, rfl⟩, rfl, rfl, hgrp⟩
  · intro p hp heq
    obtain ⟨s', hs', hpmem⟩ := List.mem_flatMap.mp hp
    obtain ⟨r, hr, hpeq⟩ := List.mem_map.mp hpmem
    have hr2 : r ∈ st.records ∧ (r.session_id == s'.session_id) = true :=
      List.mem_filter.mp hr
    have hps : p.1 = s' := by rw [← hpeq]
    have : r ∈ recordsOf st s.session_id := by
      refine List.mem_filter.mpr ⟨hr2.1, ?_⟩
      have := hr2.2
      rw [hps] at heq
      simp only [beq_iff_eq] at this ⊢
      omega
    rw [hnorec] at this
    cases this

theorem claim_C10_witness :
    ((⟨1, 1, "Math", "S33", 0, "offline", some 540, some 600, some 60, 0⟩ :
        AttendanceSession), (none : Option AttendanceRecord))
      ∈ trendJoinRows exStoreEmptySession 0 ∧
    trendScore none = 0 ∧
    (∃ tr ∈ trendQuery exStoreEmptySession 0, tr.session_date = 0 ∧
      tr.total_sessions = (trendGroup exStoreEmptySession 0 0).length ∧
      ((⟨1, 1, "Math", "S33", 0, "offline", some 540, some 600, some 60, 0⟩ :
          AttendanceSession), (none : Option AttendanceRecord))
        ∈ trendGroup exStoreEmptySession 0 0) ∧
    (∀ p ∈ engagementRows exStoreEmptySession 0, p.1.session_id ≠ 1) :=
  claim_C10_left_vs_inner exStoreEmptySession 0
    ⟨1, 1, "Math", "S33", 0, "offline", some 540, some 600, some 60, 0⟩
    (List.mem_singleton.mpr rfl) (by decide) rfl

/-! ## Trend lemmas -/

theorem trendScore_eq (o : Option AttendanceRecord) :
    trendScore o = if isPresentOpt o then 100 else 0 := by
  cases o with
  | none => rfl
  | some r =>
    unfold trendScore isPresentOpt
    by_cases h : r.status = "present"
    · simp [h]
    · simp [h]

/-- `AVG`'s numerator: the group's score sum is `100` per `present`
row. -/
theorem sum_trendScore (g : List (AttendanceSession × Option AttendanceRecord)) :
    (g.map (fun p => trendScore p.2)).sum
      = 100 * (((g.filter (fun p => isPresentOpt p.2)).length : ℚ)) := by
  induction g with
  | nil => simp
  | cons p g ih =>
    rw [List.map_cons, List.sum_cons, ih, trendScore_eq, List.filter_cons]
    by_cases h : isPresentOpt p.2
    · rw [if_pos h, if_pos h, List.length_cons]
      push_cast
      ring
    · rw [if_neg h, if_neg h]
      simp

theorem flatMap_filter_key {α β : Type} (l : List α) (f : α → List β)
    (p : β → Bool) (q : α → Bool)
    (h : ∀ a, ∀ b ∈ f a, p b = q a) :
    (l.flatMap f).filter p = (l.filter q).flatMap f := by
  induction l with
  | nil => rfl
  | cons a l ih =>
    rw [List.flatMap_cons, List.filter_append, ih, List.filter_cons]
    by_cases hq : q a = true
    · rw [if_pos hq, List.flatMap_cons]
      congr 1
      rw [List.filter_eq_self]
      intro b hb
      rw [h a b hb, hq]
    · rw [if_neg hq]
      have : (f a).filter p = [] := by
        rw [List.filter_eq_nil_iff]
        intro b hb hpb
        exact hq (by rw [← h a b hb]; exact hpb)
      rw [this, List.nil_append]

theorem mem_leftJoinRecords_fst (st : Store) (s : AttendanceSession) :
    ∀ p ∈ leftJoinRecords st s, p.1 = s := by
  intro p hp
  unfold leftJoinRecords at hp
  cases h : recordsOf st s.session_id with
  | nil =>
    rw [h] at hp
    rw [List.mem_singleton.mp hp]
  | cons r rs =>
    rw [h] at hp
    obtain ⟨r', _, hp'⟩ := List.mem_map.mp hp
    rw [← hp']

theorem leftJoinRecords_length (st : Store) (s : AttendanceSession) :
    (leftJoinRecords st s).length
      = max 1 (recordsOf st s.session_id).length := by
  unfold leftJoinRecords
  cases h : recordsOf st s.session_id with
  | nil => rfl
  | cons r rs =>
    rw [List.length_map]
    simp only [List.length_cons]
    omega

/-- Restricting the trend join rows to one date is the left join of the
sessions of that date (inside the window). -/
theorem trendGroup_eq (st : Store) (today : Int) (d : Int) :
    trendGroup st today d
      = (st.sessions.filter (fun s =>
            (s.session_date == d) && decide (today - 30 ≤ s.session_date))).flatMap
          (leftJoinRecords st) := by
  unfold trendGroup trendJoinRows
  rw [flatMap_filter_key _ _ _ (fun s => s.session_date == d)
    (fun s p hp => by rw [mem_leftJoinRecords_fst st s p hp])]
  rw [List.filter_filter]

theorem trendQuery_dates (st : Store) (today : Int) :
    (trendQuery st today).map (fun tr => tr.session_date)
      = trendDates st today := by
  unfold trendQuery
  rw [List.map_map]
  exact List.map_id _

/-- C3 as stated is false: `COUNT(*)` over the left join counts join
rows, not distinct sessions.  One session on day 0 carrying two records
yields a trend row with `total_sessions = 2` although only one distinct
session exists on that date. -/
theorem claim_C3_counterexample :
    ¬ ∀ tr ∈ trendQuery exStoreTrend 0,
        tr.total_sessions
          = trendTotalSessionsSpec exStoreTrend 0 tr.session_date := by
  decide

/-- C3 amended: for each session date in the last 30 days, in ascending
date order without duplicates — every date carrying a window session
yields a row — the trend row's `total_sessions` is the number of
left-join rows of that date — a session with `k ≥ 1` records
contributes `k` and a record-less session contributes `1`, so it is not
the count of distinct sessions — and `attendance_rate` is the average
over those join rows of `100` for a `present` record and `0` otherwise
(`partial`, `absent` and the `NULL` row of a record-less session all
contribute `0`). -/
theorem claim_C3_trend (st : Store) (today : Int) :
    List.Sorted (fun a b : Int => a ≤ b)
      ((trendQuery st today).map (fun tr => tr.session_date)) ∧
    ((trendQuery st today).map (fun tr => tr.session_date)).Nodup ∧
    (∀ s ∈ st.sessions, today - 30 ≤ s.session_date →
      ∃ tr ∈ trendQuery st today, tr.session_date = s.session_date) ∧
    ∀ tr ∈ trendQuery st today,
      (∃ s ∈ st.sessions, s.session_date = tr.session_date ∧
        today - 30 ≤ s.session_date) ∧
      tr.total_sessions = (trendGroup st today tr.session_date).length ∧
      tr.total_sessions
        = ((st.sessions.filter (fun s =>
              (s.session_date == tr.session_date) &&
                decide (today - 30 ≤ s.session_date))).map
            (fun s => max 1 (recordsOf st s.session_id).length)).sum ∧
      tr.attendance_rate
        = 100 * (((trendGroup st today tr.session_date).filter
              (fun p => isPresentOpt p.2)).length : ℚ)
            / ((trendGroup st today tr.session_date).length : ℚ) := by
  refine ⟨?_, ?_, ?_, ?_⟩
  · rw [trendQuery_dates]
    exact List.sorted_insertionSort _ _
  · rw [trendQuery_dates]
    exact (List.perm_insertionSort _ _).nodup_iff.mpr (List.nodup_dedup _)
  · intro s hs hw
    have hne : leftJoinRecords st s ≠ [] := by
      have hlen := leftJoinRecords_length st s
      intro hnil
      rw [hnil, List.length_nil] at hlen
      omega
    obtain ⟨p, hp⟩ := List.exists_mem_of_ne_nil _ hne
    have hrow : p ∈ trendJoinRows st today :=
      List.mem_flatMap.mpr ⟨s,
        List.mem_filter.mpr ⟨hs, by simpa using hw⟩, hp⟩
    have hd : s.session_date ∈ trendDates st today := by
      unfold trendDates
      rw [List.mem_insertionSort, List.mem_dedup]
      refine List.mem_map.mpr ⟨p, hrow, ?_⟩
      rw [mem_leftJoinRecords_fst st s p hp]
    exact ⟨_, List.mem_map.mpr ⟨s.session_date, hd, rfl⟩, rfl⟩
  · intro tr htr
    obtain ⟨d, hd, htr'⟩ := List.mem_map.mp htr
    obtain ⟨hdate, htot, hrate⟩ : tr.session_date = d ∧
        tr.total_sessions = (trendGroup st today d).length ∧
        tr.attendance_rate
          = ((trendGroup st today d).map (fun p => trendScore p.2)).sum
            / ((trendGroup st today d).length : ℚ) := by
      rw [← htr']
      exact ⟨rfl, rfl, rfl⟩
    rw [hdate, htot, hrate]
    refine ⟨?_, rfl, ?_, ?_⟩
    · unfold trendDates at hd
      rw [List.mem_insertionSort, List.mem_dedup] at hd
      obtain ⟨p, hp, hpd⟩ := List.mem_map.mp hd
      obtain ⟨s, hsf, hpl⟩ := List.mem_flatMap.mp hp
      obtain ⟨hs, hsw⟩ := List.mem_filter.mp hsf
      refine ⟨s, hs, ?_, by simpa using hsw⟩
      rw [← hpd, mem_leftJoinRecords_fst st s p hpl]
    · rw [trendGroup_eq, List.length_flatMap]
      congr 1
      refine List.map_congr_left ?_
      intro s _
      exact leftJoinRecords_length st s
    · rw [sum_trendScore]

theorem claim_C3_witness :
    (⟨0, (trendGroup exStoreTrend 0 0).length,
        ((trendGroup exStoreTrend 0 0).map (fun p => trendScore p.2)).sum
          / ((trendGroup exStoreTrend 0 0).length : ℚ)⟩ : TrendRow)
      ∈ trendQuery exStoreTrend 0 ∧
    (∃ tr ∈ trendQuery exStoreTrend 0, tr.session_date = 0) ∧
    (trendGroup exStoreTrend 0 0).length = 2 ∧
    trendTotalSessionsSpec exStoreTrend 0 0 = 1 := by
  have hmem : (⟨0, (trendGroup exStoreTrend 0 0).length,
      ((trendGroup exStoreTrend 0 0).map (fun p => trendScore p.2)).sum
        / ((trendGroup exStoreTrend 0 0).length : ℚ)⟩ : TrendRow)
      ∈ trendQuery exStoreTrend 0 :=
    List.mem_map.mpr ⟨0, by decide, rfl⟩
  have hcomplete := (claim_C3_trend exStoreTrend 0).2.2.1
    ⟨1, 1, "Math", "S33", 0, "offline", some 540, some 600, some 60, 2⟩
    (by decide) (by decide)
  have hlen := ((claim_C3_trend exStoreTrend 0).2.2.2 _ hmem).2.1
  exact ⟨hmem, hcomplete, by rw [← hlen]; decide, by decide⟩

/-! ## Counting lemmas (list Fubini for the SQL joins) -/

theorem sum_map_zero_of {α M : Type} [AddCommMonoid M] :
    ∀ (l : List α) (f : α → M), (∀ b ∈ l, f b = 0) → (l.map f).sum = 0
  | [], _, _ => rfl
  | a :: l, f, h => by
    rw [List.map_cons, List.sum_cons, h a (List.mem_cons_self a l),
      sum_map_zero_of l f (fun b hb => h b (List.mem_cons_of_mem a hb)),
      zero_add]

theorem sum_map_eq_single {α M : Type} [AddCommMonoid M] :
    ∀ (l : List α) (f : α → M) (a : α), a ∈ l → l.Nodup →
      (∀ b ∈ l, b ≠ a → f b = 0) → (l.map f).sum = f a
  | [], _, _, ha, _, _ => by cases ha
  | x :: l, f, a, ha, hnd, h0 => by
    rw [List.map_cons, List.sum_cons]
    rcases List.mem_cons.mp ha with hxa | hal
    · subst hxa
      rw [sum_map_zero_of l f (fun b hb => h0 b (List.mem_cons_of_mem _ hb)
        (fun hba => (List.nodup_cons.mp hnd).1 (hba ▸ hb))), add_zero]
    · rw [h0 x (List.mem_cons_self x l)
        (fun hxa => (List.nodup_cons.mp hnd).1 (hxa ▸ hal)),
        sum_map_eq_single l f a hal (List.nodup_cons.mp hnd).2
          (fun b hb => h0 b (List.mem_cons_of_mem x hb)), zero_add]

theorem sum_map_ite {α M : Type} [AddCommMonoid M] :
    ∀ (l : List α) (p : α → Bool) (w : α → M),
      (l.map (fun a => if p a then w a else 0)).sum
        = ((l.filter p).map w).sum
  | [], _, _ => rfl
  | a :: l, p, w => by
    rw [List.map_cons, List.sum_cons, sum_map_ite l p w, List.filter_cons]
    by_cases h : p a = true
    · rw [if_pos h, if_pos h, List.map_cons, List.sum_cons]
    · rw [if_neg h, if_neg h, zero_add]

theorem length_eq_sum_ones {α : Type} :
    ∀ l : List α, l.length = (l.map (fun _ => 1)).sum
  | [] => rfl
  | a :: l => by
    rw [List.length_cons, List.map_cons, List.sum_cons,
      length_eq_sum_ones l, Nat.add_comm]

theorem sum_flatMap {α β M : Type} [AddCommMonoid M] :
    ∀ (l : List α) (f : α → List β) (w : β → M),
      ((l.flatMap f).map w).sum = (l.map (fun a => ((f a).map w).sum)).sum
  | [], _, _ => rfl
  | a :: l, f, w => by
    rw [List.flatMap_cons, List.map_append, List.sum_append,
      sum_flatMap l f w, List.map_cons, List.sum_cons]

theorem flatMap_ite {α β : Type} :
    ∀ (l : List α) (p : α → Bool) (f : α → List β),
      (l.flatMap (fun a => if p a then f a else [])) = (l.filter p).flatMap f
  | [], _, _ => rfl
  | a :: l, p, f => by
    rw [List.flatMap_cons, flatMap_ite l p f, List.filter_cons]
    by_cases h : p a = true
    · rw [if_pos h, if_pos h, List.flatMap_cons]
    · rw [if_neg h, if_neg h, List.nil_append]

theorem filter_flatMap {α β : Type} :
    ∀ (l : List α) (f : α → List β) (p : β → Bool),
      (l.flatMap f).filter p = l.flatMap (fun a => (f a).filter p)
  | [], _, _ => rfl
  | a :: l, f, p => by
    rw [List.flatMap_cons, List.filter_append, filter_flatMap l f p,
      List.flatMap_cons]

theorem sum_filter_swap {α β M : Type} [AddCommMonoid M] :
    ∀ (S : List α) (R : List β) (q : α → β → Bool) (w : β → M),
      (S.map (fun s => ((R.filter (fun r => q s r)).map w).sum)).sum
        = (R.map (fun r =>
            ((S.filter (fun s => q s r)).map (fun _ => w r)).sum)).sum
  | [], R, q, w => by
    rw [List.map_nil, List.sum_nil]
    exact (sum_map_zero_of R _ (fun b _ => by
      rw [List.filter_nil, List.map_nil, List.sum_nil])).symm
  | s :: S, R, q, w => by
    rw [List.map_cons, List.sum_cons, sum_filter_swap S R q w,
      ← sum_map_ite R (fun r => q s r) w, ← List.sum_map_add]
    refine congrArg List.sum (List.map_congr_left ?_)
    intro r _
    rw [List.filter_cons]
    by_cases h : q s r = true
    · rw [if_pos h, if_pos h, List.map_cons, List.sum_cons]
    · rw [if_neg h, if_neg h, zero_add]

/-- A `Nodup`-keyed list has at most one element satisfying a predicate
that pins the key. -/
theorem length_le_one_of_nodup_key {α : Type} :
    ∀ (S : List α) (key : α → Nat), ((S.map key).Nodup) →
      ∀ (p : α → Bool) (n : Nat), (∀ s, p s = true → key s = n) →
      (S.filter p).length ≤ 1
  | [], _, _, _, _, _ => by simp
  | s :: S, key, hnd, p, n, hp => by
    rw [List.map_cons, List.nodup_cons] at hnd
    rw [List.filter_cons]
    by_cases h : p s = true
    · rw [if_pos h]
      have hnil : S.filter p = [] := by
        rw [List.filter_eq_nil_iff]
        intro b hb hpb
        exact hnd.1 (by
          rw [hp s h, ← hp b hpb]
          exact List.mem_map.mpr ⟨b, hb, rfl⟩)
      rw [hnil]
      simp
    · rw [if_neg h]
      exact length_le_one_of_nodup_key S key hnd.2 p n hp

theorem filter_map_const_sum {α M : Type} [AddCommMonoid M]
    (S : List α) (p : α → Bool) (c : M)
    (hle : (S.filter p).length ≤ 1) :
    ((S.filter p).map (fun _ => c)).sum = if S.any p then c else 0 := by
  cases hf : S.filter p with
  | nil =>
    have hany : S.any p = false := by
      rw [← Bool.not_eq_true]
      intro hcon
      obtain ⟨x, hx, hpx⟩ := List.any_eq_true.mp hcon
      have : x ∈ S.filter p := List.mem_filter.mpr ⟨hx, hpx⟩
      rw [hf] at this
      cases this
    rw [hany]
    simp
  | cons a tail =>
    have htail : tail = [] := by
      rw [hf] at hle
      simp only [List.length_cons] at hle
      exact List.length_eq_zero.mp (by omega)
    have hmem : a ∈ S.filter p := by rw [hf]; exact List.mem_cons_self a tail
    have hany : S.any p = true :=
      List.any_eq_true.mpr ⟨a, (List.mem_filter.mp hmem).1,
        (List.mem_filter.mp hmem).2⟩
    rw [htail, hany]
    simp

/-- List Fubini specialised to the session/record join: summing a weight
over the records of each (filtered) session equals summing it over the
records having a matching filtered session — provided `session_id` is a
proper key (`SERIAL` primary key). -/
theorem join_sum {M : Type} [AddCommMonoid M]
    (S : List AttendanceSession) (sp : AttendanceSession → Bool)
    (hnd : (S.map (fun s => s.session_id)).Nodup)
    (R : List AttendanceRecord) (w : AttendanceRecord → M) :
    ((S.filter sp).map (fun s =>
        ((R.filter (fun r => r.session_id == s.session_id)).map w).sum)).sum
      = ((R.filter (fun r =>
            S.any (fun s => (r.session_id == s.session_id) && sp s))).map w).sum := by
  rw [sum_filter_swap (S.filter sp) R
    (fun s r => r.session_id == s.session_id) w,
    ← sum_map_ite R
      (fun r => S.any (fun s => (r.session_id == s.session_id) && sp s)) w]
  refine congrArg List.sum (List.map_congr_left ?_)
  intro r _
  rw [List.filter_filter]
  refine filter_map_const_sum S _ (w r) ?_
  refine length_le_one_of_nodup_key S (fun s => s.session_id) hnd _
    r.session_id ?_
  intro s hs
  simp only [Bool.and_eq_true, beq_iff_eq] at hs
  exact hs.1.symm

/-! ## Engagement lemmas -/

/-- Restricting the engagement join rows to one section is the inner
join of the window sessions of that section. -/
theorem engagementGroup_eq (st : Store) (today : Int) (sec : String) :
    engagementGroup st today sec
      = (st.sessions.filter (fun s =>
            (s.section_ == sec) && decide (today - 7 ≤ s.session_date))).flatMap
          (fun s => (recordsOf st s.session_id).map (fun r => (s, r))) := by
  unfold engagementGroup engagementRows
  rw [flatMap_filter_key _ _ _ (fun s => s.section_ == sec)
    (fun s p hp => by
      obtain ⟨r, _, hpr⟩ := List.mem_map.mp hp
      rw [← hpr])]
  rw [List.filter_filter]

/-- Any record-weighted sum over an engagement group equals the same sum
over the section's window records (needs `session_id` to be a key). -/
theorem engagementGroup_sum {M : Type} [AddCommMonoid M]
    (st : Store) (today : Int) (sec : String)
    (hnd : (st.sessions.map (fun s => s.session_id)).Nodup)
    (w : AttendanceRecord → M) :
    ((engagementGroup st today sec).map (fun p => w p.2)).sum
      = ((sectionWindowRecords st today sec).map w).sum := by
  rw [engagementGroup_eq, sum_flatMap]
  have h1 : ∀ s : AttendanceSession,
      (((recordsOf st s.session_id).map (fun r => (s, r))).map
          (fun p => w p.2)).sum
        = ((st.records.filter
              (fun r => r.session_id == s.session_id)).map w).sum := by
    intro s
    rw [List.map_map]
    rfl
  rw [List.map_congr_left (fun s _ => h1 s)]
  exact join_sum st.sessions _ hnd st.records w

theorem engagementGroup_length (st : Store) (today : Int) (sec : String)
    (hnd : (st.sessions.map (fun s => s.session_id)).Nodup) :
    (engagementGroup st today sec).length
      = (sectionWindowRecords st today sec).length := by
  have h := engagementGroup_sum st today sec hnd (fun _ => (1 : Nat))
  rw [length_eq_sum_ones, length_eq_sum_ones (sectionWindowRecords st today sec)]
  exact h

theorem engagementGroup_present (st : Store) (today : Int) (sec : String)
    (hnd : (st.sessions.map (fun s => s.session_id)).Nodup) :
    ((engagementGroup st today sec).filter
        (fun p => p.2.status == "present")).length
      = ((sectionWindowRecords st today sec).filter
          (fun r => r.status == "present")).length := by
  have h := engagementGroup_sum st today sec hnd
    (fun r => if r.status == "present" then (1 : Nat) else 0)
  simp only [] at h
  rw [sum_map_ite, sum_map_ite] at h
  rw [length_eq_sum_ones, length_eq_sum_ones]
  exact h

/-- C7: every engagement row reports, for its section, the average
`confidence_score` over the records joined through last-7-days sessions
of that section, `present_count` counting only `status = 'present'` and
`total_count` counting all statuses; and every section having such a
record appears. -/
theorem claim_C7_engagement (st : Store) (today : Int)
    (hnd : (st.sessions.map (fun s => s.session_id)).Nodup) :
    (∀ er ∈ engagementQuery st today,
      sectionWindowRecords st today er.section_ ≠ [] ∧
      er.total_count = (sectionWindowRecords st today er.section_).length ∧
      er.present_count = ((sectionWindowRecords st today er.section_).filter
          (fun r => r.status == "present")).length ∧
      er.avg_engagement
        = ((sectionWindowRecords st today er.section_).map
              (fun r => r.confidence_score)).sum
            / ((sectionWindowRecords st today er.section_).length : ℚ)) ∧
    (∀ sec, sectionWindowRecords st today sec ≠ [] →
      ∃ er ∈ engagementQuery st today, er.section_ = sec) := by
  constructor
  · intro er her
    obtain ⟨sec, hsec, heq⟩ := List.mem_map.mp her
    obtain ⟨hs, havg, hpc, htc⟩ : er.section_ = sec ∧
        er.avg_engagement
          = ((engagementGroup st today sec).map
                (fun p => p.2.confidence_score)).sum
              / ((engagementGroup st today sec).length : ℚ) ∧
        er.present_count = ((engagementGroup st today sec).filter
            (fun p => p.2.status == "present")).length ∧
        er.total_count = (engagementGroup st today sec).length := by
      rw [← heq]
      exact ⟨rfl, rfl, rfl, rfl⟩
    have hconf := engagementGroup_sum st today sec hnd
      (fun r => r.confidence_score)
    have hlen := engagementGroup_length st today sec hnd
    have hpres := engagementGroup_present st today sec hnd
    have hne : sectionWindowRecords st today sec ≠ [] := by
      have hsec' : sec
          ∈ ((engagementRows st today).map (fun p => p.1.section_)).dedup :=
        hsec
      rw [List.mem_dedup] at hsec'
      obtain ⟨row, hrow, hrsec⟩ := List.mem_map.mp hsec'
      have hrowg : row ∈ engagementGroup st today sec :=
        List.mem_filter.mpr ⟨hrow, by rw [← hrsec]; exact beq_self_eq_true _⟩
      have : 0 < (engagementGroup st today sec).length :=
        List.length_pos.mpr (List.ne_nil_of_mem hrowg)
      rw [hlen] at this
      exact List.ne_nil_of_length_pos this
    rw [hs]
    refine ⟨hne, ?_, ?_, ?_⟩
    · rw [htc, hlen]
    · rw [hpc, hpres]
    · rw [havg, hconf, hlen]
  · intro sec hne
    obtain ⟨r, hr⟩ := List.exists_mem_of_ne_nil _ hne
    obtain ⟨hrrec, hrany⟩ := List.mem_filter.mp hr
    obtain ⟨s, hsmem, hsp⟩ := List.any_eq_true.mp hrany
    simp only [Bool.and_eq_true] at hsp
    have hrow : (s, r) ∈ engagementRows st today := by
      refine List.mem_flatMap.mpr ⟨s, List.mem_filter.mpr ⟨hsmem, ?_⟩, ?_⟩
      · exact hsp.2.2
      · refine List.mem_map.mpr ⟨r, List.mem_filter.mpr ⟨hrrec, ?_⟩, rfl⟩
        exact hsp.1
    have hsecmem : sec ∈ engagementSections st today := by
      show sec ∈ ((engagementRows st today).map (fun p => p.1.section_)).dedup
      rw [List.mem_dedup]
      refine List.mem_map.mpr ⟨(s, r), hrow, ?_⟩
      exact (beq_iff_eq.mp hsp.2.1)
    exact ⟨_, List.mem_map.mpr ⟨sec, hsecmem, rfl⟩, rfl⟩

theorem claim_C7_witness :
    (sectionWindowRecords exStoreEngagement 0 "S33").length = 5 ∧
    ((sectionWindowRecords exStoreEngagement 0 "S33").filter
        (fun r => r.status == "present")).length = 3 ∧
    (engagementGroup exStoreEngagement 0 "S33").length = 5 ∧
    ((engagementGroup exStoreEngagement 0 "S33").filter
        (fun p => p.2.status == "present")).length = 3 := by
  have h := (claim_C7_engagement exStoreEngagement 0 (by decide)).1
    ⟨"S33",
      ((engagementGroup exStoreEngagement 0 "S33").map
          (fun p => p.2.confidence_score)).sum
        / ((engagementGroup exStoreEngagement 0 "S33").length : ℚ),
      ((engagementGroup exStoreEngagement 0 "S33").filter
          (fun p => p.2.status == "present")).length,
      (engagementGroup exStoreEngagement 0 "S33").length⟩
    (List.mem_map.mpr ⟨"S33", by decide, rfl⟩)
  refine ⟨by decide, by decide, ?_, ?_⟩
  · exact h.2.1.trans (by decide)
  · exact h.2.2.1.trans (by decide)

/-! ## At-risk lemmas -/

/-- The `WHERE` with SQL `NULL` semantics turns the chain of left joins
into the inner join per student. -/
theorem riskRows_eq (st : Store) (today : Int) :
    riskRows st today = st.students.flatMap (riskInner st today) := by
  unfold riskRows riskJoin2 riskJoin1
  rw [List.flatMap_assoc, filter_flatMap]
  refine congrArg _ (funext ?_)
  intro stu
  rw [filter_flatMap]
  unfold riskInner
  cases hsr : studentRecords st stu.student_id with
  | nil => rfl
  | cons r0 rs =>
    rw [List.flatMap_map]
    refine congrArg _ (funext ?_)
    intro r
    show ((match sessionsOf st r.session_id with
        | [] => [(stu, some r, none)]
        | ss => ss.map (fun s => (stu, some r, some s))).filter
          (fun p => riskWherePass today p.2.2))
      = ((sessionsOf st r.session_id).filter
          (fun s => decide (today - 30 ≤ s.session_date))).map
        (fun s => (stu, some r, some s))
    cases hss : sessionsOf st r.session_id with
    | nil => rfl
    | cons s0 ss =>
      rw [List.filter_map]
      rfl

theorem flatMap_eq_of_single {α β : Type} :
    ∀ (l : List α) (g : α → List β) (a : α), a ∈ l → l.Nodup →
      (∀ b ∈ l, b ≠ a → g b = []) → l.flatMap g = g a
  | [], _, _, ha, _, _ => by cases ha
  | x :: l, g, a, ha, hnd, h0 => by
    rw [List.flatMap_cons]
    rcases List.mem_cons.mp ha with hxa | hal
    · subst hxa
      have hnil : l.flatMap g = [] := by
        rw [List.flatMap_eq_nil_iff]
        intro b hb
        exact h0 b (List.mem_cons_of_mem _ hb)
          (fun hba => (List.nodup_cons.mp hnd).1 (hba ▸ hb))
      rw [hnil, List.append_nil]
    · rw [h0 x (List.mem_cons_self x l)
        (fun hxa => (List.nodup_cons.mp hnd).1 (hxa ▸ hal)),
        List.nil_append,
        flatMap_eq_of_single l g a hal (List.nodup_cons.mp hnd).2
          (fun b hb => h0 b (List.mem_cons_of_mem _ hb))]

theorem mem_riskInner_fst (st : Store) (today : Int) (stu : Student) :
    ∀ row ∈ riskInner st today stu, row.1 = stu := by
  intro row hrow
  obtain ⟨r, _, hrm⟩ := List.mem_flatMap.mp hrow
  obtain ⟨s, _, hre⟩ := List.mem_map.mp hrm
  rw [← hre]

theorem mem_riskInner_shape (st : Store) (today : Int) (stu : Student) :
    ∀ row ∈ riskInner st today stu,
      ∃ r s, row = (stu, some r, some s) := by
  intro row hrow
  obtain ⟨r, _, hrm⟩ := List.mem_flatMap.mp hrow
  obtain ⟨s, _, hre⟩ := List.mem_map.mp hrm
  exact ⟨r, s, hre.symm⟩

/-- Grouping by a student's key selects exactly their inner-join rows
(students' `student_id` being a primary key). -/
theorem riskGroup_eq (st : Store) (today : Int) (stu : Student)
    (hndStu : (st.students.map (fun s => s.student_id)).Nodup)
    (hstu : stu ∈ st.students) :
    riskGroup st today (stu.student_id, stu.full_name)
      = riskInner st today stu := by
  unfold riskGroup
  rw [riskRows_eq, filter_flatMap,
    flatMap_eq_of_single st.students _ stu hstu hndStu.of_map ?h0]
  case h0 =>
    intro stu' hstu' hne
    rw [List.filter_eq_nil_iff]
    intro row hrow hkey
    have hfst := mem_riskInner_fst st today stu' row hrow
    rw [Bool.and_eq_true, beq_iff_eq, beq_iff_eq] at hkey
    exact hne (by
      have hid : stu'.student_id = stu.student_id := by
        rw [← hfst]; exact hkey.1
      exact List.inj_on_of_nodup_map hndStu hstu' hstu hid)
  rw [List.filter_eq_self]
  intro row hrow
  rw [mem_riskInner_fst st today stu row hrow]
  rw [Bool.and_eq_true]
  exact ⟨beq_self_eq_true _, beq_self_eq_true _⟩

/-- Any record-weighted sum over a student's inner-join rows equals the
same sum over the student's window records (sessions' `session_id`
being a primary key). -/
theorem riskInner_sum {M : Type} [AddCommMonoid M] (st : Store)
    (today : Int) (stu : Student)
    (hndSes : (st.sessions.map (fun s => s.session_id)).Nodup)
    (w : AttendanceRecord → M) :
    ((riskInner st today stu).map (riskWeight w)).sum
      = ((windowRecords st today stu.student_id).map w).sum := by
  unfold riskInner
  rw [sum_flatMap]
  have h1 : ∀ r : AttendanceRecord,
      ((((sessionsOf st r.session_id).filter
            (fun s => decide (today - 30 ≤ s.session_date))).map
          (fun s => (stu, some r, some s))).map (riskWeight w)).sum
        = if st.sessions.any (fun s =>
              decide (today - 30 ≤ s.session_date) &&
                (s.session_id == r.session_id))
          then w r else 0 := by
    intro r
    rw [List.map_map]
    show (((sessionsOf st r.session_id).filter
        (fun s => decide (today - 30 ≤ s.session_date))).map
          (fun _ => w r)).sum = _
    unfold sessionsOf
    rw [List.filter_filter]
    refine filter_map_const_sum st.sessions _ (w r) ?_
    refine length_le_one_of_nodup_key st.sessions (fun s => s.session_id)
      hndSes _ r.session_id ?_
    intro s hs
    simp only [Bool.and_eq_true, beq_iff_eq] at hs
    exact hs.2
  rw [List.map_congr_left (fun r _ => h1 r), sum_map_ite]
  rfl

theorem riskGroup_sum {M : Type} [AddCommMonoid M] (st : Store)
    (today : Int) (stu : Student)
    (hndStu : (st.students.map (fun s => s.student_id)).Nodup)
    (hndSes : (st.sessions.map (fun s => s.session_id)).Nodup)
    (hstu : stu ∈ st.students) (w : AttendanceRecord → M) :
    ((riskGroup st today (stu.student_id, stu.full_name)).map
        (riskWeight w)).sum
      = ((windowRecords st today stu.student_id).map w).sum := by
  rw [riskGroup_eq st today stu hndStu hstu]
  exact riskInner_sum st today stu hndSes w

theorem riskGroup_length (st : Store) (today : Int) (stu : Student)
    (hndStu : (st.students.map (fun s => s.student_id)).Nodup)
    (hndSes : (st.sessions.map (fun s => s.session_id)).Nodup)
    (hstu : stu ∈ st.students) :
    (riskGroup st today (stu.student_id, stu.full_name)).length
      = (windowRecords st today stu.student_id).length := by
  have h := riskGroup_sum st today stu hndStu hndSes hstu
    (fun _ => (1 : Nat))
  rw [length_eq_sum_ones, length_eq_sum_ones, ← h]
  refine congrArg List.sum (List.map_congr_left ?_)
  intro row hrow
  have hshape := mem_riskInner_shape st today stu row
    (by rw [← riskGroup_eq st today stu hndStu hstu]; exact hrow)
  obtain ⟨r, s, hre⟩ := hshape
  rw [hre]
  rfl

/-- The `CASE WHEN` present test on a join row is the record-level
indicator weight. -/
theorem riskWeight_indicator
    (p : Student × Option AttendanceRecord × Option AttendanceSession) :
    (if isPresentRisk p then (1 : Nat) else 0)
      = riskWeight (fun r => if r.status == "present" then (1 : Nat) else 0)
          p := by
  obtain ⟨a, b, c⟩ := p
  cases b with
  | none => rfl
  | some r => rfl

theorem riskGroup_present (st : Store) (today : Int) (stu : Student)
    (hndStu : (st.students.map (fun s => s.student_id)).Nodup)
    (hndSes : (st.sessions.map (fun s => s.session_id)).Nodup)
    (hstu : stu ∈ st.students) :
    ((riskGroup st today (stu.student_id, stu.full_name)).filter
        isPresentRisk).length
      = ((windowRecords st today stu.student_id).filter
          (fun r => r.status == "present")).length := by
  have h := riskGroup_sum st today stu hndStu hndSes hstu
    (fun r => if r.status == "present" then (1 : Nat) else 0)
  rw [length_eq_sum_ones, length_eq_sum_ones, ← sum_map_ite, ← sum_map_ite,
    List.map_congr_left (fun p _ => riskWeight_indicator p), h]

/-- A grouping key occurs iff it is an enrolled student's key and the
student has at least one record joined to a window session. -/
theorem mem_riskKeys (st : Store) (today : Int) (k : String × String) :
    k ∈ riskKeys st today ↔ ∃ stu ∈ st.students,
      k = (stu.student_id, stu.full_name) ∧
      windowRecords st today stu.student_id ≠ [] := by
  constructor
  · intro hk
    have hk' : k ∈ ((riskRows st today).map
        (fun p => (p.1.student_id, p.1.full_name))).dedup := hk
    rw [List.mem_dedup] at hk'
    obtain ⟨row, hrow, hkey⟩ := List.mem_map.mp hk'
    rw [riskRows_eq] at hrow
    obtain ⟨stu, hstu, hin⟩ := List.mem_flatMap.mp hrow
    obtain ⟨r, hr, hrm⟩ := List.mem_flatMap.mp hin
    obtain ⟨s, hsmem, hre⟩ := List.mem_map.mp hrm
    refine ⟨stu, hstu, ?_, ?_⟩
    · rw [← hkey, ← hre]
    · have hrwin : r ∈ windowRecords st today stu.student_id := by
        refine List.mem_filter.mpr ⟨hr, ?_⟩
        obtain ⟨hss, hwin⟩ := List.mem_filter.mp hsmem
        obtain ⟨hsmem2, hsid⟩ := List.mem_filter.mp hss
        refine List.any_eq_true.mpr ⟨s, hsmem2, ?_⟩
        rw [Bool.and_eq_true]
        exact ⟨hwin, hsid⟩
      exact List.ne_nil_of_mem hrwin
  · intro ⟨stu, hstu, hkeq, hne⟩
    obtain ⟨r, hr⟩ := List.exists_mem_of_ne_nil _ hne
    obtain ⟨hrrec, hrany⟩ := List.mem_filter.mp hr
    obtain ⟨s, hsmem, hsp⟩ := List.any_eq_true.mp hrany
    rw [Bool.and_eq_true] at hsp
    have hrow : (stu, some r, some s) ∈ riskRows st today := by
      rw [riskRows_eq]
      refine List.mem_flatMap.mpr ⟨stu, hstu, ?_⟩
      refine List.mem_flatMap.mpr ⟨r, hrrec, ?_⟩
      refine List.mem_map.mpr ⟨s, List.mem_filter.mpr
        ⟨List.mem_filter.mpr ⟨hsmem, hsp.2⟩, hsp.1⟩, rfl⟩
    show k ∈ ((riskRows st today).map
        (fun p => (p.1.student_id, p.1.full_name))).dedup
    rw [List.mem_dedup]
    exact List.mem_map.mpr ⟨(stu, some r, some s), hrow, hkeq.symm⟩

/-- C4: the at-risk result is sorted ascending by
`attendance_percentage` and contains exactly the students having at
least one record joined to a last-30-days session whose window
percentage `100 * present / total` is strictly below 75 (so a student
at exactly 75% is excluded, and a student with no window record never
appears — the division is guarded by the join). -/
theorem claim_C4_at_risk (st : Store) (today : Int)
    (hndStu : (st.students.map (fun s => s.student_id)).Nodup)
    (hndSes : (st.sessions.map (fun s => s.session_id)).Nodup) :
    List.Sorted riskLE (riskQuery st today) ∧
    (∀ rr ∈ riskQuery st today, ∃ stu ∈ st.students,
      rr.student_id = stu.student_id ∧ rr.full_name = stu.full_name ∧
      windowRecords st today stu.student_id ≠ [] ∧
      rr.total_sessions = (windowRecords st today stu.student_id).length ∧
      rr.attended_sessions
        = ((windowRecords st today stu.student_id).filter
            (fun r => r.status == "present")).length ∧
      rr.attendance_percentage
        = ((rr.attended_sessions : ℚ) * 100) / (rr.total_sessions : ℚ) ∧
      rr.attendance_percentage < 75) ∧
    (∀ stu ∈ st.students, windowRecords st today stu.student_id ≠ [] →
      ((((windowRecords st today stu.student_id).filter
            (fun r => r.status == "present")).length : ℚ) * 100)
          / ((windowRecords st today stu.student_id).length : ℚ) < 75 →
      ∃ rr ∈ riskQuery st today, rr.student_id = stu.student_id ∧
        rr.full_name = stu.full_name) := by
  refine ⟨List.sorted_insertionSort riskLE _, ?_, ?_⟩
  · intro rr hrr
    have hrr' : rr ∈ (riskUnsorted st today).insertionSort riskLE := hrr
    rw [List.mem_insertionSort] at hrr'
    obtain ⟨hmemmap, hlt⟩ := List.mem_filter.mp hrr'
    obtain ⟨k, hk, hrk⟩ := List.mem_map.mp hmemmap
    obtain ⟨stu, hstu, hkeq, hne⟩ := (mem_riskKeys st today k).mp hk
    subst hkeq
    obtain ⟨hsid, hname, htot, hatt, hpct⟩ :
        rr.student_id = stu.student_id ∧
        rr.full_name = stu.full_name ∧
        rr.total_sessions
          = (riskGroup st today (stu.student_id, stu.full_name)).length ∧
        rr.attended_sessions
          = ((riskGroup st today (stu.student_id, stu.full_name)).filter
              isPresentRisk).length ∧
        rr.attendance_percentage
          = ((((riskGroup st today
                  (stu.student_id, stu.full_name)).filter
                isPresentRisk).length : ℚ) * 100)
            / ((riskGroup st today
                (stu.student_id, stu.full_name)).length : ℚ) := by
      rw [← hrk]
      exact ⟨rfl, rfl, rfl, rfl, rfl⟩
    refine ⟨stu, hstu, hsid, hname, hne, ?_, ?_, ?_, ?_⟩
    · rw [htot, riskGroup_length st today stu hndStu hndSes hstu]
    · rw [hatt, riskGroup_present st today stu hndStu hndSes hstu]
    · rw [hpct, htot, hatt]
    · exact of_decide_eq_true hlt
  · intro stu hstu hne hpct
    have hk : (stu.student_id, stu.full_name) ∈ riskKeys st today :=
      (mem_riskKeys st today _).mpr ⟨stu, hstu, rfl, hne⟩
    have hpct' : (riskRowOf st today
        (stu.student_id, stu.full_name)).attendance_percentage < 75 := by
      show ((((riskGroup st today (stu.student_id, stu.full_name)).filter
            isPresentRisk).length : ℚ) * 100)
          / ((riskGroup st today
              (stu.student_id, stu.full_name)).length : ℚ) < 75
      rw [riskGroup_length st today stu hndStu hndSes hstu,
        riskGroup_present st today stu hndStu hndSes hstu]
      exact hpct
    refine ⟨riskRowOf st today (stu.student_id, stu.full_name), ?_, rfl, rfl⟩
    show riskRowOf st today (stu.student_id, stu.full_name)
      ∈ (riskUnsorted st today).insertionSort riskLE
    rw [List.mem_insertionSort]
    exact List.mem_filter.mpr ⟨List.mem_map.mpr ⟨_, hk, rfl⟩,
      decide_eq_true hpct'⟩

theorem claim_C4_witness :
    ∃ rr ∈ riskQuery exStoreRisk 0, rr.student_id = "STU001" ∧
      rr.full_name = "John Doe" := by
  have h1 : ((windowRecords exStoreRisk 0 stuA.student_id).filter
      (fun r => r.status == "present")).length = 1 := by decide
  have h2 : (windowRecords exStoreRisk 0 stuA.student_id).length = 2 := by
    decide
  have hpct : ((((windowRecords exStoreRisk 0 stuA.student_id).filter
        (fun r => r.status == "present")).length : ℚ) * 100)
      / ((windowRecords exStoreRisk 0 stuA.student_id).length : ℚ) < 75 := by
    rw [h1, h2]
    norm_num
  exact (claim_C4_at_risk exStoreRisk 0 (by decide) (by decide)).2.2
    stuA (by decide) (by decide) hpct
